import Mathlib

/-!
Verification development for the `object-system-rust` repository: a
publish/subscribe message router ("rabboe") exchanging framed business
objects (a JSON header, a NUL byte, then an optional binary payload).

The development shallowly embeds:
* `src/object.rs` — the `BusinessObject` data model and codec;
* `src/bin/rabboe.rs` — the server: connection table, handshake, ping
  handling, fan-out routing, and the per-connection send queue.

External collaborators (the `rustc_serialize` JSON value type and its
accessors, and the subscription-filter module, which the specification
declares out of scope) are modelled from their documented interfaces.
-/

namespace ObjSys

/-- Models the external `rustc_serialize::json::Json` value type.  The
`f64` constructor stands for any floating-point number (the claims never
depend on a float's value, only on a value not being a string or an
integer). -/
inductive Json where
  | null
  | boolean (b : Bool)
  | i64 (n : Int)
  | u64 (n : Nat)
  | f64
  | string (s : String)
  | array (xs : List Json)
  | object (xs : List (String × Json))

/-- Models `Json::as_string`: the value as a string, when it is one. -/
def Json.as_string : Json → Option String
  | .string s => some s
  | _ => none

/-- Models `Json::is_string`. -/
def Json.is_string : Json → Bool
  | .string _ => true
  | _ => false

/-- Models `Json::as_u64`: the value as a non-negative machine integer
when that is possible (documented interface of the external crate). -/
def Json.as_u64 : Json → Option Nat
  | .i64 n => if 0 ≤ n then some n.toNat else none
  | .u64 n => some n
  | _ => none

/-- Models `Json::as_array`. -/
def Json.as_array : Json → Option (List Json)
  | .array xs => some xs
  | _ => none

/-- Association list standing for `BTreeMap<String, Json>`.  `getKey` is
first-match lookup; maps built by the embedded code always have distinct
keys, mirroring the `BTreeMap` representation invariant. -/
abbrev Smap := List (String × Json)

/-- Lookup in a string-keyed map (`BTreeMap::get`). -/
def getKey (k : String) : Smap → Option Json
  | [] => none
  | (k', v) :: rest => if k' = k then some v else getKey k rest

/-- Insert-or-overwrite into a string-keyed map (`BTreeMap::insert`). -/
def insertKey (k : String) (v : Json) : Smap → Smap
  | [] => [(k, v)]
  | (k', v') :: rest => if k' = k then (k, v) :: rest else (k', v') :: insertKey k v rest

/-- Keys of a map, in representation order. -/
def keysOf (m : Smap) : List String := m.map Prod.fst

/-- Payload of a business object (`object.rs`, enum `Payload`); bytes are
modelled as natural numbers. -/
inductive Payload where
  | bytes (b : List Nat)
deriving DecidableEq

/-- The `BusinessObject` record of `object.rs`. -/
structure BusinessObject where
  event : Option String
  _type : Option String
  size : Option Nat
  payload : Option Payload
  metadata : Smap

/-- Error type `ReadBusinessObjectError` of `object.rs` (the payload of
`ReadError` is an OS error, dropped in the model). -/
inductive ReadBusinessObjectError where
  | ReadError
  | JsonSemanticsError (reason : String)
  | JsonSyntaxError (s : String) (reason : String)
  | BufferCharacterDecodingError

/-- The `PartialEq` implementation for `BusinessObject` (`object.rs`,
lines 36–43): comparison looks at `event`, `_type`, `size`, `payload`
only. -/
def beqBusinessObject (a b : BusinessObject) : Bool :=
  decide (a.event = b.event) && decide (a._type = b._type) &&
  decide (a.size = b.size) && decide (a.payload = b.payload)

/-- `BusinessObject::has_payload`. -/
def BusinessObject.has_payload (o : BusinessObject) : Bool :=
  match o.size with
  | some size => decide (0 < size)
  | none => false

/-- `BusinessObject::natures`: the strings under `metadata["natures"]`
when that value is a JSON array; non-string elements are dropped. -/
def BusinessObject.natures (o : BusinessObject) : List String :=
  match getKey "natures" o.metadata with
  | some natures =>
    match natures.as_array with
    | some xs => xs.filterMap Json.as_string
    | none => []
  | none => []

/-- The metadata-copying loop of `ToJson for BusinessObject`
(`object.rs`, lines 73–75). -/
def copyFold (m : Smap) : Smap :=
  m.foldl (fun acc kv => insertKey kv.1 kv.2 acc) []

/-- The header map built by `ToJson for BusinessObject` (`object.rs`,
lines 69–82): copy the metadata, then insert `type`, `size`, `event`
when present. -/
def headerMap (o : BusinessObject) : Smap :=
  let d := copyFold o.metadata
  let d := match o._type with
    | some t => insertKey "type" (Json.string t) d
    | none => d
  let d := match o.size with
    | some s => insertKey "size" (Json.u64 s) d
    | none => d
  let d := match o.event with
    | some e => insertKey "event" (Json.string e) d
    | none => d
  d

/-- `ToJson for BusinessObject` (`object.rs`, lines 69–83). -/
def BusinessObject.to_json (o : BusinessObject) : Json :=
  Json.object (headerMap o)

/-- The reserved-key test of the decoding loop (`object.rs`, line 187). -/
def reservedKey (k : String) : Bool :=
  k == "event" || k == "type" || k == "size"

/-- The metadata loop of `to_business_object` (`object.rs`, lines
186–192): every non-reserved key passes through unchanged. -/
def metaFold (d : Smap) : Smap :=
  d.foldl (fun acc kv => if reservedKey kv.1 then acc else insertKey kv.1 kv.2 acc) []

/-- `ToBusinessObject for BTreeMap<String, Json>` (`object.rs`, lines
149–196): `event`/`type` only when the value is a JSON string, `size`
only when the value is a non-negative integer that is positive. -/
def toBusinessObject (d : Smap) : BusinessObject :=
  { event := (getKey "event" d).bind Json.as_string
    _type := (getKey "type" d).bind Json.as_string
    size := (getKey "size" d).bind fun v =>
      (Json.as_u64 v).bind fun s => if 0 < s then some s else none
    payload := none
    metadata := metaFold d }

/-- `BusinessObject::from_json` (`object.rs`, lines 87–92). -/
def BusinessObject.from_json (obj : Json) : Except ReadBusinessObjectError BusinessObject :=
  match obj with
  | .object d => .ok (toBusinessObject d)
  | _ => .error (.JsonSemanticsError "Unsupported JSON type")

/-- Bytes of an ASCII/Unicode string, one number per character. -/
def strBytes (s : String) : List Nat :=
  s.toList.map Char.toNat

/-- Hexadecimal digit, for JSON control-character escapes. -/
def hexDigit (n : Nat) : Nat :=
  if n < 10 then 48 + n else 87 + n

/-- Escaping of one character inside a JSON string literal: quote and
backslash are escaped, control characters become a Unicode escape. -/
def escChar (c : Char) : List Nat :=
  if c.toNat = 34 then [92, 34]
  else if c.toNat = 92 then [92, 92]
  else if c.toNat < 32 then [92, 117, 48, 48, hexDigit (c.toNat / 16), hexDigit (c.toNat % 16)]
  else [c.toNat]

/-- Serialization of a JSON string literal: a quote, the escaped
characters, a quote. -/
def serString (s : String) : List Nat :=
  [34] ++ (s.toList.foldr (fun c acc => escChar c ++ acc) []) ++ [34]

mutual

/-- Models the external compact JSON encoder (`Json::to_string` of
`rustc_serialize`, called by `BusinessObject::to_bytes`).  Only its
totality matters to the claims; no claim depends on the exact text. -/
def serJson : Json → List Nat
  | .null => strBytes "null"
  | .boolean b => strBytes (if b then "true" else "false")
  | .i64 n => strBytes (toString n)
  | .u64 n => strBytes (toString n)
  | .f64 => strBytes "0.0"
  | .string s => serString s
  | .array xs => [91] ++ serArr xs ++ [93]
  | .object xs => [123] ++ serObj xs ++ [125]

/-- Comma-separated serialization of array elements. -/
def serArr : List Json → List Nat
  | [] => []
  | [x] => serJson x
  | x :: y :: xs => serJson x ++ [44] ++ serArr (y :: xs)

/-- Comma-separated serialization of object entries. -/
def serObj : List (String × Json) → List Nat
  | [] => []
  | [(k, v)] => serString k ++ [58] ++ serJson v
  | (k, v) :: e :: xs => serString k ++ [58] ++ serJson v ++ [44] ++ serObj (e :: xs)

end

/-- `BusinessObject::to_bytes` (`object.rs`, lines 94–109): the
serialized header, a NUL byte, then the payload bytes when present.  The
two `assert!` statements guarding the payload branch are modelled as
`none` (a panic aborts encoding). -/
def BusinessObject.to_bytes (o : BusinessObject) : Option (List Nat) :=
  let result := serJson o.to_json ++ [0]
  match o.payload with
  | some (.bytes payload) =>
    if o.has_payload = true ∧ o.size = some payload.length then
      some (result ++ payload)
    else
      none
  | none => some result

/-- Payload bytes that `to_bytes` appends after the NUL terminator. -/
def payloadBytes (o : BusinessObject) : List Nat :=
  match o.payload with
  | some (.bytes b) => b
  | none => []

/-- Modelled from the spec: the frame reader of the missing
`src/io.rs` (`BusinessObjectStream::read_business_objects`), §4.A/§4.B
of the spec, at the JSON level — the byte-level JSON parser is an
external collaborator (spec §1).  Given the parsed header value and the
bytes following the NUL terminator: require a JSON object at the root,
build the object, and when a payload is expected take exactly `size`
buffered bytes (`none` when the payload is not yet fully buffered). -/
def readFrame (j : Json) (rest : List Nat) : Option BusinessObject :=
  match BusinessObject.from_json j with
  | .error _ => none
  | .ok obj =>
    if obj.has_payload then
      match obj.size with
      | some n =>
        if n ≤ rest.length then
          some { obj with payload := some (.bytes (rest.take n)) }
        else none
      | none => none
    else some obj

/-- Modelled from the spec: the subscription filter of the missing
`subscription` module is an opaque value exposing only
`matches(natures, event, payload_type) → bool` (spec §3) together with
its own JSON representation used in the subscribe reply (spec §4.F).
The `matches` arguments mirror the `routing_decision` call sites in
`rabboe.rs`: natures are passed as an optional list. -/
structure BusinessSubscription where
  matchesP : Option (List String) → Option String → Option String → Bool
  to_json : Json

/-- Errors of the subscription handshake (`BusinessSubscriptionError` of
the missing `subscription` module; `FilterRejected` stands for any error
produced by the external filter parser itself). -/
inductive BusinessSubscriptionError where
  | NoSubscriptionMetadataKey
  | UnknownSubscriptionEvent
  | SubscriptionNotEvent
  | FilterRejected
deriving DecidableEq

/-- Modelled from the spec: `routing_decision` of the missing
`subscription` module evaluates the opaque filter (spec §3, §4.E). -/
def routing_decision (natures : Option (List String)) (event : Option String)
    (payloadType : Option String) (sub : BusinessSubscription) : Bool :=
  sub.matchesP natures event payloadType

/-- `parse_subscription` of `rabboe.rs` (lines 32–53), parameterized by
the external filter parser `p` (`subscription::parse_subscription` of
the missing module). -/
def parse_subscription (p : Json → Except BusinessSubscriptionError BusinessSubscription)
    (obj : BusinessObject) : Except BusinessSubscriptionError BusinessSubscription :=
  match obj.event with
  | some event =>
    if event = "routing/subscribe" then
      match getKey "subscriptions" obj.metadata with
      | some subscriptions => p subscriptions
      | none => .error .NoSubscriptionMetadataKey
    else .error .UnknownSubscriptionEvent
  | none => .error .SubscriptionNotEvent

/-- `subscription_reply` of `rabboe.rs` (lines 56–76): a
`routing/subscribe/reply` object carrying the accepted subscription and,
when the request's `metadata["id"]` is a JSON string, `in-reply-to`. -/
def subscription_reply (subscriptions : BusinessSubscription) (request : BusinessObject) :
    BusinessObject :=
  let metadata := insertKey "subscriptions" subscriptions.to_json []
  let metadata :=
    match getKey "id" request.metadata with
    | some id =>
      match id.as_string with
      | some s => insertKey "in-reply-to" (Json.string s) metadata
      | none => metadata
    | none => metadata
  { event := some "routing/subscribe/reply", _type := none, size := none,
    payload := none, metadata := metadata }

/-- `ping_reply` of `rabboe.rs` (lines 79–98): a `pong` object carrying
`in-reply-to` when the ping's `metadata["id"]` is a JSON string. -/
def ping_reply (request : BusinessObject) : BusinessObject :=
  let metadata : Smap := []
  let metadata :=
    match getKey "id" request.metadata with
    | some id =>
      match id.as_string with
      | some s => insertKey "in-reply-to" (Json.string s) metadata
      | none => metadata
    | none => metadata
  { event := some "pong", _type := none, size := none,
    payload := none, metadata := metadata }

/-- The mio `EventSet` interest mask restricted to the three bits the
server uses. -/
structure EventSet where
  readable : Bool
  writable : Bool
  hup : Bool
deriving DecidableEq

/-- The per-connection record `BusinessClient` of `rabboe.rs` (lines
378–388).  The TCP stream, peer address and `last_activity` wall-clock
timestamp are external state and are not modelled; `Rc` sharing is
modelled by value. -/
structure BusinessClient where
  token : Nat
  sendQueue : List BusinessObject
  subscription : Option BusinessSubscription
  interest : EventSet

/-- `BusinessClient::send_object` (lines 469–474): push onto the send
queue (the end of the `Vec`) and set writable interest.  It always
returns `Ok`. -/
def send_object (c : BusinessClient) (o : BusinessObject) : BusinessClient :=
  { c with sendQueue := c.sendQueue ++ [o],
           interest := { c.interest with writable := true } }

/-- `Vec::pop`: removes and returns the LAST element. -/
def vecPop (l : List BusinessObject) : Option (BusinessObject × List BusinessObject) :=
  match l.getLast? with
  | some x => some (x, l.dropLast)
  | none => none

/-- Outcome reported by the OS for the single non-blocking
`try_write_buf` of one writable event. -/
inductive TryWriteResult where
  | notReady
  | written (n : Nat)
  | ioError

/-- Result of `BusinessClient::writable`: the updated client and the
bytes written (when any), an `io::Result` error, or a process panic
(short write, or an encoding assertion failure). -/
inductive WritableOutcome where
  | ok (c : BusinessClient) (written : Option (List Nat))
  | err
  | panicked

/-- `BusinessClient::writable` (lines 433–467): pop one object from the
send queue (`Vec::pop`, hence the newest), encode it, attempt a single
non-blocking write; on would-block push the object back; on a full write
flush; on a short write panic.  Afterwards, clear writable interest when
the queue has become empty. -/
def BusinessClient.writable (c : BusinessClient) (os : TryWriteResult) : WritableOutcome :=
  match vecPop c.sendQueue with
  | none => .err
  | some (object, rest) =>
    match object.to_bytes with
    | none => .panicked
    | some bytes =>
      match os with
      | .notReady =>
        let c1 := { c with sendQueue := rest ++ [object] }
        .ok c1 none
      | .written n =>
        if n = bytes.length then
          let c1 := { c with sendQueue := rest }
          let c2 :=
            if c1.sendQueue.isEmpty then
              { c1 with interest := { c1.interest with writable := false } }
            else c1
          .ok c2 (some bytes)
        else .panicked
      | .ioError => .err

/-- The `Server` of `rabboe.rs` (lines 101–105): its own token
(`Token(1)`), the connection table (the `Slab`, modelled as a list in
token order), and whether `event_loop.shutdown()` has been called. -/
structure Server where
  token : Nat
  clients : List BusinessClient
  shutdown : Bool

/-- `client_for_token`-style lookup in the connection table. -/
def findClient (s : Server) (token : Nat) : Option BusinessClient :=
  s.clients.find? (fun c => c.token == token)

/-- In-place mutation of the client with the given token. -/
def updateClient (s : Server) (token : Nat) (f : BusinessClient → BusinessClient) : Server :=
  { s with clients := s.clients.map (fun c => if c.token == token then f c else c) }

/-- The send queue of the client with the given token, when present. -/
def queueOf (s : Server) (token : Nat) : Option (List BusinessObject) :=
  (findClient s token).map (fun c => c.sendQueue)

/-- `Server::reset_connection` (lines 230–237): shutting down when the
token is the server's own, removing the client from the table
otherwise. -/
def reset_connection (s : Server) (token : Nat) : Server :=
  if s.token = token then { s with shutdown := true }
  else { s with clients := s.clients.filter (fun c => c.token != token) }

/-- The fan-out loop of `Server::handle_incoming_object` (lines
266–299): iterate the connection table in order; on the FIRST client
whose subscription is `None` the source `break`s, leaving every later
client untouched; otherwise evaluate the filter and enqueue on a
match. -/
def fanOut (object : BusinessObject) : List BusinessClient → List BusinessClient
  | [] => []
  | c :: rest =>
    match c.subscription with
    | none => c :: rest
    | some sub =>
      let decision := routing_decision (some object.natures) object.event object._type sub
      (if decision then send_object c object else c) :: fanOut object rest

/-- `Server::handle_incoming_object` (lines 239–323), parameterized by
the external filter parser `p`.  Event-loop re-registration is modelled
as succeeding, so the `bad_tokens` list stays empty; the `last_activity`
touch is wall-clock state and is not modelled. -/
def handle_incoming_object (p : Json → Except BusinessSubscriptionError BusinessSubscription)
    (s : Server) (token : Nat) (object : BusinessObject) : Server :=
  match findClient s token with
  | none => s
  | some c =>
    match c.subscription with
    | some sub =>
      if object.event = some "ping" then
        if routing_decision none (some "pong") none sub then
          updateClient s token (fun cl => send_object cl (ping_reply object))
        else s
      else
        { s with clients := fanOut object s.clients }
    | none =>
      match parse_subscription p object with
      | .ok subscription =>
        updateClient s token (fun cl =>
          { send_object cl (subscription_reply subscription object) with
            subscription := some subscription })
      | .error _ => reset_connection s token

/-- `Server::readable` (lines 202–220): on a successful read, handle
every produced object in order; on a read/decode error, log a warning
and fall through — the function returns `Ok(())` on BOTH paths.  The
boolean is the `io::Result`. -/
def Server.readable (p : Json → Except BusinessSubscriptionError BusinessSubscription)
    (s : Server) (token : Nat)
    (readResult : Except ReadBusinessObjectError (List BusinessObject)) : Server × Bool :=
  match readResult with
  | .ok objs => (objs.foldl (fun st obj => handle_incoming_object p st token obj) s, true)
  | .error _ => (s, true)

/-- The readable branch of `Handler::ready` (lines 361–372): a failure
of `Server::readable` would reset the connection, a success re-registers
it and keeps it in the table. -/
def readyReadable (p : Json → Except BusinessSubscriptionError BusinessSubscription)
    (s : Server) (token : Nat)
    (readResult : Except ReadBusinessObjectError (List BusinessObject)) : Server :=
  if s.token = token then s
  else
    match Server.readable p s token readResult with
    | (s1, true) => s1
    | (s1, false) => reset_connection s1 token

/-- The reserved keys are absent from an object's metadata. -/
def reservedFree (o : BusinessObject) : Bool :=
  (getKey "event" o.metadata).isNone && (getKey "type" o.metadata).isNone &&
  (getKey "size" o.metadata).isNone

/-- The §3 invariant exactly as the round-trip claim states it: size
present and positive iff payload present, size equal to the payload
length, reserved keys absent from metadata — together with the
`BTreeMap` representation invariant of distinct keys. -/
def claimInvariant (o : BusinessObject) : Bool :=
  (o.has_payload == o.payload.isSome) &&
  (match o.payload with
   | some (.bytes b) => o.size == some b.length
   | none => true) &&
  reservedFree o &&
  decide ((keysOf o.metadata).Nodup)

/-- Strengthening needed for the round trip: an explicit `size` of zero
is excluded (the codec collapses it to "no size"). -/
def sizePositive (o : BusinessObject) : Bool :=
  match o.size with
  | some s => decide (0 < s)
  | none => true

/-- A subscription whose filter accepts everything, for concrete
scenarios. -/
def subAll : BusinessSubscription :=
  { matchesP := fun _ _ _ => true, to_json := Json.null }

/-- A freshly registered client (read and hup interest, empty queue),
with a chosen subscription state. -/
def mkClient (t : Nat) (s : Option BusinessSubscription) : BusinessClient :=
  { token := t, sendQueue := [], subscription := s,
    interest := { readable := true, writable := false, hup := true } }

/-- A filter parser that rejects everything, for scenarios where the
parser is never consulted or must fail. -/
def pRej : Json → Except BusinessSubscriptionError BusinessSubscription :=
  fun _ => .error .FilterRejected

/-- A filter parser accepting exactly JSON arrays, for handshake
scenarios. -/
def pArr : Json → Except BusinessSubscriptionError BusinessSubscription :=
  fun j =>
    match j with
    | .array _ => .ok { matchesP := fun _ _ _ => true, to_json := j }
    | _ => .error .FilterRejected

/-- A domain object advertising the nature `chat`. -/
def objNote : BusinessObject :=
  { event := some "note", _type := none, size := none, payload := none,
    metadata := [("natures", Json.array [Json.string "chat"])] }

/-- A ping object whose `id` is the string `p1`. -/
def objPing : BusinessObject :=
  { event := some "ping", _type := none, size := none, payload := none,
    metadata := [("id", Json.string "p1")] }

/-- Minimal object whose event is `a`. -/
def objA : BusinessObject :=
  { event := some "a", _type := none, size := none, payload := none, metadata := [] }

/-- Minimal object whose event is `b`. -/
def objB : BusinessObject :=
  { event := some "b", _type := none, size := none, payload := none, metadata := [] }

/-- A client on which `objA` was enqueued before `objB`. -/
def clientAB : BusinessClient :=
  send_object (send_object (mkClient 2 none) objA) objB

/-- Connection table for the fan-out scenario: a subscribed sender
(token 2), an unsubscribed connection (token 3), and a subscribed
matching peer (token 4). -/
def fanServer : Server :=
  { token := 1,
    clients := [mkClient 2 (some subAll), mkClient 3 none, mkClient 4 (some subAll)],
    shutdown := false }

/-- A subscribed client for the decode-error scenario. -/
def subbedClient : BusinessClient := mkClient 3 (some subAll)

/-- A server holding just `subbedClient`. -/
def srvOne : Server :=
  { token := 1, clients := [subbedClient], shutdown := false }

/-- An object carrying an explicit `size` of `0` and no payload. -/
def sizeZero : BusinessObject :=
  { event := none, _type := none, size := some 0, payload := none, metadata := [] }

/-- An object whose header advertises a five-byte payload while no
payload is attached. -/
def sizeNoPayload : BusinessObject :=
  { event := none, _type := none, size := some 5, payload := none, metadata := [] }

/-- A well-formed object with a two-byte payload. -/
def oPay : BusinessObject :=
  { event := some "note", _type := some "text/plain", size := some 2,
    payload := some (.bytes [104, 105]), metadata := [("id", Json.string "m1")] }

/-- Two objects agreeing on the four compared fields but with different
metadata. -/
def cMetaA : BusinessObject :=
  { event := some "e", _type := none, size := none, payload := none,
    metadata := [("k", Json.u64 1)] }

/-- Companion of `cMetaA` with empty metadata. -/
def cMetaB : BusinessObject :=
  { event := some "e", _type := none, size := none, payload := none, metadata := [] }

theorem keysOf_cons (kv : String × Json) (m : Smap) : keysOf (kv :: m) = kv.1 :: keysOf m :=
  rfl

theorem keysOf_append (m1 m2 : Smap) : keysOf (m1 ++ m2) = keysOf m1 ++ keysOf m2 := by
  simp [keysOf]

theorem getKey_insertKey (k k' : String) (v : Json) (m : Smap) :
    getKey k' (insertKey k v m) = if k = k' then some v else getKey k' m := by
  induction m with
  | nil => simp [insertKey, getKey]
  | cons kv rest ih =>
    obtain ⟨k0, v0⟩ := kv
    by_cases h0 : k0 = k
    · subst h0
      by_cases h1 : k0 = k' <;> simp [insertKey, getKey, h1]
    · by_cases h1 : k0 = k'
      · have hkk : ¬(k = k') := fun hh => h0 (h1.trans hh.symm)
        have hkk' : ¬(k' = k) := fun hh => hkk hh.symm
        simp [insertKey, getKey, h0, h1, hkk, hkk']
      · simp [insertKey, getKey, h0, h1, ih]

theorem getKey_eq_none_iff (k : String) (m : Smap) :
    getKey k m = none ↔ k ∉ keysOf m := by
  induction m with
  | nil => simp [getKey, keysOf]
  | cons kv rest ih =>
    obtain ⟨k0, v0⟩ := kv
    rw [keysOf_cons]
    by_cases h0 : k0 = k
    · subst h0
      simp [getKey]
    · have h0' : ¬(k = k0) := fun h => h0 h.symm
      simp [getKey, h0, h0', ih]

theorem insertKey_absent (k : String) (v : Json) (m : Smap) (h : k ∉ keysOf m) :
    insertKey k v m = m ++ [(k, v)] := by
  induction m with
  | nil => simp [insertKey]
  | cons kv rest ih =>
    obtain ⟨k0, v0⟩ := kv
    rw [keysOf_cons] at h
    have h0 : k0 ≠ k := fun e => h (e ▸ List.mem_cons_self _ _)
    have hr : k ∉ keysOf rest := fun hm => h (List.mem_cons_of_mem _ hm)
    simp [insertKey, h0, ih hr]

theorem copyFold_go (m : Smap) : ∀ acc : Smap, (keysOf m).Nodup →
    (∀ k, k ∈ keysOf m → k ∉ keysOf acc) →
    (m.foldl (fun acc kv => insertKey kv.1 kv.2 acc) acc) = acc ++ m := by
  induction m with
  | nil => intro acc _ _; simp
  | cons kv rest ih =>
    intro acc hnd hdis
    obtain ⟨k0, v0⟩ := kv
    rw [keysOf_cons] at hnd hdis
    obtain ⟨hk0r, hnd'⟩ := List.nodup_cons.mp hnd
    have hk0 : k0 ∉ keysOf acc := hdis k0 (List.mem_cons_self _ _)
    have hdis' : ∀ k, k ∈ keysOf rest → k ∉ keysOf (acc ++ [(k0, v0)]) := by
      intro k hk
      rw [keysOf_append]
      simp only [List.mem_append]
      rintro (h1 | h2)
      · exact hdis k (List.mem_cons_of_mem _ hk) h1
      · have : k = k0 := List.mem_singleton.mp h2
        exact hk0r (this ▸ hk)
    calc ((k0, v0) :: rest).foldl (fun acc kv => insertKey kv.1 kv.2 acc) acc
        = rest.foldl (fun acc kv => insertKey kv.1 kv.2 acc) (insertKey k0 v0 acc) := by
          simp [List.foldl_cons]
      _ = rest.foldl (fun acc kv => insertKey kv.1 kv.2 acc) (acc ++ [(k0, v0)]) := by
          rw [insertKey_absent _ _ _ hk0]
      _ = (acc ++ [(k0, v0)]) ++ rest := ih _ hnd' hdis'
      _ = acc ++ ((k0, v0) :: rest) := by simp

theorem copyFold_eq (m : Smap) (h : (keysOf m).Nodup) : copyFold m = m := by
  have := copyFold_go m [] h (by simp [keysOf])
  simpa [copyFold] using this

theorem metaFold_go (d : Smap) : ∀ acc : Smap, (keysOf d).Nodup →
    (∀ k, k ∈ keysOf d → k ∉ keysOf acc) →
    (d.foldl (fun acc kv => if reservedKey kv.1 then acc else insertKey kv.1 kv.2 acc) acc) =
      acc ++ d.filter (fun kv => !reservedKey kv.1) := by
  induction d with
  | nil => intro acc _ _; simp
  | cons kv rest ih =>
    intro acc hnd hdis
    obtain ⟨k0, v0⟩ := kv
    rw [keysOf_cons] at hnd hdis
    obtain ⟨hk0r, hnd'⟩ := List.nodup_cons.mp hnd
    have hk0 : k0 ∉ keysOf acc := hdis k0 (List.mem_cons_self _ _)
    by_cases hres : reservedKey k0 = true
    · have hdis' : ∀ k, k ∈ keysOf rest → k ∉ keysOf acc :=
        fun k hk => hdis k (List.mem_cons_of_mem _ hk)
      simp only [List.foldl_cons, hres, if_pos]
      rw [ih acc hnd' hdis']
      simp [List.filter_cons, hres]
    · have hres' : reservedKey k0 = false := by
        simpa using hres
      have hdis' : ∀ k, k ∈ keysOf rest → k ∉ keysOf (acc ++ [(k0, v0)]) := by
        intro k hk
        rw [keysOf_append]
        simp only [List.mem_append]
        rintro (h1 | h2)
        · exact hdis k (List.mem_cons_of_mem _ hk) h1
        · have : k = k0 := List.mem_singleton.mp h2
          exact hk0r (this ▸ hk)
      simp only [List.foldl_cons, hres']
      rw [if_neg (by simp), insertKey_absent _ _ _ hk0, ih _ hnd' hdis']
      simp [List.filter_cons, hres']

theorem metaFold_eq (d : Smap) (h : (keysOf d).Nodup) :
    metaFold d = d.filter (fun kv => !reservedKey kv.1) := by
  have := metaFold_go d [] h (by simp [keysOf])
  simpa [metaFold] using this

theorem getKey_filter_reserved (k : String) (d : Smap) :
    getKey k (d.filter (fun kv => !reservedKey kv.1)) =
      if reservedKey k then none else getKey k d := by
  induction d with
  | nil => cases hp : reservedKey k <;> simp [getKey]
  | cons kv rest ih =>
    obtain ⟨k0, v0⟩ := kv
    by_cases h0 : k0 = k
    · subst h0
      cases hp : reservedKey k0 <;> simp [List.filter_cons, hp, getKey, ih]
    · cases hp : reservedKey k0 <;> simp [List.filter_cons, hp, getKey, h0, ih]

theorem find?_map_token (l : List BusinessClient) (t u : Nat)
    (f : BusinessClient → BusinessClient) (hf : ∀ c, (f c).token = c.token) :
    (l.map (fun c => if c.token == t then f c else c)).find? (fun c => c.token == u) =
      (l.find? (fun c => c.token == u)).map (fun c => if c.token == t then f c else c) := by
  induction l with
  | nil => simp
  | cons c l ih =>
    have htok : (if c.token == t then f c else c).token = c.token := by
      by_cases h : c.token = t
      · simp [h, hf]
      · simp [h]
    rw [List.map_cons]
    by_cases hu : c.token = u
    · rw [List.find?_cons_of_pos _ (by rw [htok]; simp [hu]),
          List.find?_cons_of_pos _ (by simp [hu])]
      rfl
    · rw [List.find?_cons_of_neg _ (by rw [htok]; simp [hu]),
          List.find?_cons_of_neg _ (by simp [hu])]
      exact ih

theorem find?_filter_ne (l : List BusinessClient) (t : Nat) :
    (l.filter (fun c => c.token != t)).find? (fun c => c.token == t) = none := by
  induction l with
  | nil => simp
  | cons c l ih =>
    by_cases h : c.token = t
    · simp only [List.filter_cons]
      rw [if_neg (by simp [h])]
      exact ih
    · simp only [List.filter_cons]
      rw [if_pos (by simp [h])]
      rw [List.find?_cons_of_neg _ (by simp [h])]
      exact ih

theorem findClient_updateClient (s : Server) (t u : Nat) (f : BusinessClient → BusinessClient)
    (hf : ∀ c, (f c).token = c.token) :
    findClient (updateClient s t f) u =
      (findClient s u).map (fun c => if c.token == t then f c else c) :=
  find?_map_token s.clients t u f hf

theorem findClient_reset (s : Server) (t : Nat) (ht : s.token ≠ t) :
    findClient (reset_connection s t) t = none := by
  unfold findClient reset_connection
  rw [if_neg ht]
  exact find?_filter_ne _ _

theorem getKey_append (k : String) (m1 m2 : Smap) :
    getKey k (m1 ++ m2) =
      match getKey k m1 with
      | some v => some v
      | none => getKey k m2 := by
  induction m1 with
  | nil => simp [getKey]
  | cons kv rest ih =>
    obtain ⟨k0, v0⟩ := kv
    by_cases h0 : k0 = k
    · simp [getKey, h0]
    · simp [getKey, h0, ih]

theorem not_mem_keysOf_append (k : String) (m1 m2 : Smap)
    (h1 : k ∉ keysOf m1) (h2 : k ∉ keysOf m2) : k ∉ keysOf (m1 ++ m2) := by
  rw [keysOf_append]
  intro h
  rcases List.mem_append.mp h with h | h
  · exact h1 h
  · exact h2 h

theorem not_mem_keysOf_single (k k0 : String) (v : Json) (h : ¬(k = k0)) :
    k ∉ keysOf [(k0, v)] := by
  simp [keysOf, h]

theorem headerMap_eq (o : BusinessObject)
    (hnd : (keysOf o.metadata).Nodup)
    (hE : getKey "event" o.metadata = none) (hT : getKey "type" o.metadata = none)
    (hS : getKey "size" o.metadata = none) :
    headerMap o = o.metadata ++
      ((match o._type with | some t => [("type", Json.string t)] | none => ([] : Smap)) ++
       ((match o.size with | some s => [("size", Json.u64 s)] | none => ([] : Smap)) ++
        (match o.event with | some e => [("event", Json.string e)] | none => ([] : Smap)))) := by
  have hTm : "type" ∉ keysOf o.metadata := (getKey_eq_none_iff _ _).mp hT
  have hSm : "size" ∉ keysOf o.metadata := (getKey_eq_none_iff _ _).mp hS
  have hEm : "event" ∉ keysOf o.metadata := (getKey_eq_none_iff _ _).mp hE
  simp only [headerMap, copyFold_eq _ hnd]
  cases o._type with
  | some ty =>
    cases o.size with
    | some sz =>
      cases o.event with
      | some ev =>
        dsimp only
        rw [insertKey_absent _ _ _ hTm]
        rw [insertKey_absent _ _ _
          (not_mem_keysOf_append _ _ _ hSm (not_mem_keysOf_single _ _ _ (by decide)))]
        rw [insertKey_absent _ _ _
          (not_mem_keysOf_append _ _ _
            (not_mem_keysOf_append _ _ _ hEm (not_mem_keysOf_single _ _ _ (by decide)))
            (not_mem_keysOf_single _ _ _ (by decide)))]
        simp
      | none =>
        dsimp only
        rw [insertKey_absent _ _ _ hTm]
        rw [insertKey_absent _ _ _
          (not_mem_keysOf_append _ _ _ hSm (not_mem_keysOf_single _ _ _ (by decide)))]
        simp
    | none =>
      cases o.event with
      | some ev =>
        dsimp only
        rw [insertKey_absent _ _ _ hTm]
        rw [insertKey_absent _ _ _
          (not_mem_keysOf_append _ _ _ hEm (not_mem_keysOf_single _ _ _ (by decide)))]
        simp
      | none =>
        dsimp only
        rw [insertKey_absent _ _ _ hTm]
        simp
  | none =>
    cases o.size with
    | some sz =>
      cases o.event with
      | some ev =>
        dsimp only
        rw [insertKey_absent _ _ _ hSm]
        rw [insertKey_absent _ _ _
          (not_mem_keysOf_append _ _ _ hEm (not_mem_keysOf_single _ _ _ (by decide)))]
        simp
      | none =>
        dsimp only
        rw [insertKey_absent _ _ _ hSm]
        simp
    | none =>
      cases o.event with
      | some ev =>
        dsimp only
        rw [insertKey_absent _ _ _ hEm]
        simp
      | none =>
        dsimp only
        simp

theorem headerMap_getKey (o : BusinessObject)
    (hnd : (keysOf o.metadata).Nodup)
    (hE : getKey "event" o.metadata = none) (hT : getKey "type" o.metadata = none)
    (hS : getKey "size" o.metadata = none) :
    getKey "event" (headerMap o) = Option.map Json.string o.event ∧
    getKey "type" (headerMap o) = Option.map Json.string o._type ∧
    getKey "size" (headerMap o) = Option.map Json.u64 o.size ∧
    (∀ k, reservedKey k = false → getKey k (headerMap o) = getKey k o.metadata) := by
  rw [headerMap_eq o hnd hE hT hS]
  refine ⟨?_, ?_, ?_, ?_⟩
  · cases o._type <;> cases o.size <;> cases o.event <;>
      simp [getKey_append, getKey, hE]
  · cases o._type <;> cases o.size <;> cases o.event <;>
      simp [getKey_append, getKey, hT]
  · cases o._type <;> cases o.size <;> cases o.event <;>
      simp [getKey_append, getKey, hS]
  · intro k hk
    have hk' : (¬(k = "event") ∧ ¬(k = "type")) ∧ ¬(k = "size") := by
      simpa [reservedKey] using hk
    have h1 : ¬("event" = k) := fun h => hk'.1.1 h.symm
    have h2 : ¬("type" = k) := fun h => hk'.1.2 h.symm
    have h3 : ¬("size" = k) := fun h => hk'.2 h.symm
    cases hgm : getKey k o.metadata <;>
      cases o._type <;> cases o.size <;> cases o.event <;>
        simp [getKey_append, getKey, hgm, h1, h2, h3]

theorem headerMap_nodup (o : BusinessObject)
    (hnd : (keysOf o.metadata).Nodup)
    (hE : getKey "event" o.metadata = none) (hT : getKey "type" o.metadata = none)
    (hS : getKey "size" o.metadata = none) :
    (keysOf (headerMap o)).Nodup := by
  have hTm : "type" ∉ keysOf o.metadata := (getKey_eq_none_iff _ _).mp hT
  have hSm : "size" ∉ keysOf o.metadata := (getKey_eq_none_iff _ _).mp hS
  have hEm : "event" ∉ keysOf o.metadata := (getKey_eq_none_iff _ _).mp hE
  have hmem : ∀ (k a : String) (x : Json), k ∉ keysOf o.metadata →
      (a, x) ∈ o.metadata → ¬a = k := by
    intro k a x hk hax ha
    subst ha
    exact hk (List.mem_map_of_mem Prod.fst hax)
  rw [headerMap_eq o hnd hE hT hS]
  cases o._type <;> cases o.size <;> cases o.event <;>
    simp [keysOf_append, keysOf, List.nodup_append, List.Disjoint, hnd, hTm, hSm, hEm]
  all_goals
    first
    | exact hnd
    | (refine ⟨hnd, ?_⟩
       intro a x hax
       first
       | exact hmem _ _ _ hEm hax
       | exact hmem _ _ _ hSm hax
       | exact hmem _ _ _ hTm hax
       | exact ⟨hmem _ _ _ hSm hax, hmem _ _ _ hEm hax⟩
       | exact ⟨hmem _ _ _ hTm hax, hmem _ _ _ hEm hax⟩
       | exact ⟨hmem _ _ _ hTm hax, hmem _ _ _ hSm hax⟩
       | exact ⟨hmem _ _ _ hTm hax, hmem _ _ _ hSm hax, hmem _ _ _ hEm hax⟩)

/-- C10: the `PartialEq` implementation for `BusinessObject` compares
only the `event`, `type`, `size` and `payload` fields, so any two
objects agreeing on those four fields compare equal regardless of their
metadata. -/
theorem partial_eq_ignores_metadata (a b : BusinessObject)
    (he : a.event = b.event) (ht : a._type = b._type) (hs : a.size = b.size)
    (hp : a.payload = b.payload) : beqBusinessObject a b = true := by
  simp [beqBusinessObject, he, ht, hs, hp]

/-- Witness for C10: two concrete objects with the same four compared
fields but different metadata compare equal. -/
theorem partial_eq_ignores_metadata_witness :
    (cMetaA.event = cMetaB.event ∧ cMetaA._type = cMetaB._type ∧
     cMetaA.size = cMetaB.size ∧ cMetaA.payload = cMetaB.payload ∧
     getKey "k" cMetaA.metadata = some (Json.u64 1) ∧ getKey "k" cMetaB.metadata = none) ∧
    beqBusinessObject cMetaA cMetaB = true :=
  ⟨⟨rfl, rfl, rfl, rfl, rfl, rfl⟩, partial_eq_ignores_metadata cMetaA cMetaB rfl rfl rfl rfl⟩

/-- C9 (amended): encoding appends the serialized JSON header, one NUL
byte, then the payload when present; it fails (an assertion panic) iff a
payload is present while `size` is not both positive and equal to the
payload's byte length.  When no payload is present encoding always
succeeds, even when `size` advertises one. -/
theorem to_bytes_frame_structure (o : BusinessObject) :
    (o.payload = none → o.to_bytes = some (serJson o.to_json ++ [0])) ∧
    (∀ b, o.payload = some (.bytes b) →
      ((o.has_payload = true ∧ o.size = some b.length) →
        o.to_bytes = some (serJson o.to_json ++ [0] ++ b)) ∧
      (¬(o.has_payload = true ∧ o.size = some b.length) → o.to_bytes = none)) := by
  constructor
  · intro h
    unfold BusinessObject.to_bytes
    rw [h]
  · intro b hb
    constructor
    · intro hcond
      unfold BusinessObject.to_bytes
      rw [hb]
      simp only [if_pos hcond]
    · intro hcond
      unfold BusinessObject.to_bytes
      rw [hb]
      simp only [if_neg hcond]

/-- Witness for C9: a two-byte payload with matching `size` encodes to
header, NUL, payload. -/
theorem to_bytes_frame_structure_witness :
    (oPay.payload = some (.bytes [104, 105]) ∧ oPay.has_payload = true ∧
     oPay.size = some 2) ∧
    oPay.to_bytes = some (serJson oPay.to_json ++ [0] ++ [104, 105]) :=
  ⟨⟨rfl, rfl, rfl⟩, ((to_bytes_frame_structure oPay).2 [104, 105] rfl).1 ⟨rfl, rfl⟩⟩

/-- Counterexample for C9 as stated: a header advertising `size = 5`
with no payload breaks the §3 invariant (`has_payload` is true while the
payload is absent), yet encoding succeeds instead of failing. -/
theorem encode_succeeds_on_broken_invariant :
    sizeNoPayload.to_bytes.isSome = true ∧
    sizeNoPayload.has_payload = true ∧ sizeNoPayload.payload = none :=
  ⟨rfl, rfl, rfl⟩

/-- C2 (code bug): the send queue is a `Vec` used with `push`/`pop`, so
the writable handler transmits the NEWEST queued object first, not the
oldest: after enqueuing `objA` then `objB`, one writable event writes
`objB`'s bytes and leaves `objA` queued. -/
theorem send_queue_is_lifo :
    clientAB.sendQueue = [objA, objB] ∧
    BusinessClient.writable clientAB (.written (objB.to_bytes.getD []).length) =
      .ok { clientAB with sendQueue := [objA] } (some (objB.to_bytes.getD [])) ∧
    objB.to_bytes ≠ objA.to_bytes :=
  ⟨rfl, rfl, by decide⟩

/-- C3 (code bug): `Server::readable` logs a decode error and returns
`Ok(())`, so after a read that fails with `JsonSyntaxError` the
connection is still in the connection table. -/
theorem decode_error_keeps_connection :
    readyReadable pRej srvOne 3 (.error (.JsonSyntaxError "x" "invalid syntax")) = srvOne ∧
    findClient srvOne 3 = some subbedClient :=
  ⟨rfl, rfl⟩

/-- C1 (code bug): the fan-out loop `break`s at the first connection
whose subscription is `None`.  In a table `[subscribed sender 2,
unsubscribed 3, subscribed matching 4]`, sending a non-ping object from
connection 2 enqueues it on 2 but NOT on the matching connection 4. -/
theorem fanout_stops_at_unsubscribed :
    queueOf (handle_incoming_object pRej fanServer 2 objNote) 2 = some [objNote] ∧
    queueOf (handle_incoming_object pRej fanServer 2 objNote) 4 = some [] ∧
    findClient fanServer 4 = some (mkClient 4 (some subAll)) ∧
    routing_decision (some objNote.natures) objNote.event objNote._type subAll = true :=
  ⟨rfl, rfl, rfl, rfl⟩

/-- C7: decoding a header map sets `size` to `some n` exactly when the
value under `"size"` is a non-negative JSON integer `n` with `0 < n` (so
an explicit `0` yields `none`), and sets `event`/`type` to `some`
exactly when the respective value is a JSON string. -/
theorem header_field_extraction (d : Smap) (n : Nat) (e t : String) :
    ((toBusinessObject d).size = some n ↔
      0 < n ∧ (getKey "size" d = some (Json.u64 n) ∨
               getKey "size" d = some (Json.i64 (n : Int)))) ∧
    ((toBusinessObject d).event = some e ↔ getKey "event" d = some (Json.string e)) ∧
    ((toBusinessObject d)._type = some t ↔ getKey "type" d = some (Json.string t)) := by
  refine ⟨?_, ?_, ?_⟩
  · cases hv : getKey "size" d with
    | none => simp [toBusinessObject, hv]
    | some v =>
      cases v with
      | u64 m =>
        simp only [toBusinessObject, hv, Option.some_bind, Json.as_u64]
        by_cases hm : 0 < m
        · rw [if_pos hm]
          simp
          omega
        · rw [if_neg hm]
          simp
          omega
      | i64 k =>
        simp only [toBusinessObject, hv, Option.some_bind, Json.as_u64]
        by_cases hk : (0 : Int) ≤ k
        · rw [if_pos hk]
          simp only [Option.some_bind]
          by_cases h2 : 0 < k.toNat
          · rw [if_pos h2]
            simp
            omega
          · rw [if_neg h2]
            simp
            omega
        · rw [if_neg hk]
          simp
          omega
      | null => simp [toBusinessObject, hv, Json.as_u64]
      | boolean b => simp [toBusinessObject, hv, Json.as_u64]
      | f64 => simp [toBusinessObject, hv, Json.as_u64]
      | string s => simp [toBusinessObject, hv, Json.as_u64]
      | array xs => simp [toBusinessObject, hv, Json.as_u64]
      | object xs => simp [toBusinessObject, hv, Json.as_u64]
  · cases hv : getKey "event" d with
    | none => simp [toBusinessObject, hv]
    | some v => cases v <;> simp [toBusinessObject, hv, Json.as_string]
  · cases hv : getKey "type" d with
    | none => simp [toBusinessObject, hv]
    | some v => cases v <;> simp [toBusinessObject, hv, Json.as_string]

/-- C8: a decoded object's metadata never contains the reserved keys
`event`, `type`, `size`, and agrees with the input map on every other
key. -/
theorem decoded_metadata_reserved_free (d : Smap) (hnd : (keysOf d).Nodup) :
    getKey "event" (toBusinessObject d).metadata = none ∧
    getKey "type" (toBusinessObject d).metadata = none ∧
    getKey "size" (toBusinessObject d).metadata = none ∧
    (∀ k, reservedKey k = false → getKey k (toBusinessObject d).metadata = getKey k d) := by
  have hm : (toBusinessObject d).metadata = d.filter (fun kv => !reservedKey kv.1) := by
    simp only [toBusinessObject]
    exact metaFold_eq d hnd
  rw [hm]
  refine ⟨?_, ?_, ?_, ?_⟩
  · rw [getKey_filter_reserved]
    simp [reservedKey]
  · rw [getKey_filter_reserved]
    simp [reservedKey]
  · rw [getKey_filter_reserved]
    simp [reservedKey]
  · intro k hk
    rw [getKey_filter_reserved]
    simp [hk]

/-- Witness for C8 at a concrete header map with one reserved and one
ordinary key. -/
theorem decoded_metadata_reserved_free_witness :
    (keysOf [("event", Json.string "x"), ("foo", Json.u64 7)]).Nodup ∧
    (getKey "event" (toBusinessObject [("event", Json.string "x"), ("foo", Json.u64 7)]).metadata = none ∧
     getKey "type" (toBusinessObject [("event", Json.string "x"), ("foo", Json.u64 7)]).metadata = none ∧
     getKey "size" (toBusinessObject [("event", Json.string "x"), ("foo", Json.u64 7)]).metadata = none ∧
     (∀ k, reservedKey k = false →
       getKey k (toBusinessObject [("event", Json.string "x"), ("foo", Json.u64 7)]).metadata =
         getKey k [("event", Json.string "x"), ("foo", Json.u64 7)])) :=
  ⟨by decide, decoded_metadata_reserved_free [("event", Json.string "x"), ("foo", Json.u64 7)] (by decide)⟩

/-- C5: on an unsubscribed connection, the first inbound object
establishes a subscription (and queues the reply on that connection) iff
its event is `routing/subscribe` and its metadata carries a
`subscriptions` entry the filter parser accepts; in every other case the
connection is removed from the table (so nothing is ever enqueued on
it). -/
theorem handshake_gate (p : Json → Except BusinessSubscriptionError BusinessSubscription)
    (s : Server) (t : Nat) (c : BusinessClient) (O : BusinessObject)
    (hc : findClient s t = some c) (hsub : c.subscription = none) (ht : s.token ≠ t) :
    (∀ v sub, O.event = some "routing/subscribe" →
      getKey "subscriptions" O.metadata = some v → p v = .ok sub →
      findClient (handle_incoming_object p s t O) t =
        some { send_object c (subscription_reply sub O) with subscription := some sub }) ∧
    ((¬∃ v sub, O.event = some "routing/subscribe" ∧
        getKey "subscriptions" O.metadata = some v ∧ p v = .ok sub) →
      findClient (handle_incoming_object p s t O) t = none) := by
  constructor
  · intro v sub hev hv hok
    have hps : parse_subscription p O = .ok sub := by
      simp [parse_subscription, hev, hv, hok]
    simp only [handle_incoming_object, hc, hsub, hps]
    rw [findClient_updateClient s t t
      (fun cl => { send_object cl (subscription_reply sub O) with subscription := some sub })
      (fun cl => rfl), hc]
    have hct : c.token = t := by
      have := List.find?_some (by simpa [findClient] using hc)
      simpa using this
    simp [hct]
  · intro hne
    have hps : ∃ err, parse_subscription p O = .error err := by
      cases hev : O.event with
      | none => exact ⟨.SubscriptionNotEvent, by simp [parse_subscription, hev]⟩
      | some ev =>
        by_cases hev2 : ev = "routing/subscribe"
        · subst hev2
          cases hv : getKey "subscriptions" O.metadata with
          | none => exact ⟨.NoSubscriptionMetadataKey, by simp [parse_subscription, hev, hv]⟩
          | some v =>
            cases hok : p v with
            | ok sub => exact absurd ⟨v, sub, hev, hv, hok⟩ hne
            | error err => exact ⟨err, by simp [parse_subscription, hev, hv, hok]⟩
        · exact ⟨.UnknownSubscriptionEvent, by simp [parse_subscription, hev, hev2]⟩
    obtain ⟨err, hps⟩ := hps
    simp only [handle_incoming_object, hc, hsub, hps]
    exact findClient_reset s t ht

/-- Witness for C5: a concrete unsubscribed client subscribing with a
parser that accepts JSON arrays. -/
theorem handshake_gate_witness :
    (findClient { token := 1, clients := [mkClient 2 none], shutdown := false } 2 =
       some (mkClient 2 none) ∧
     (mkClient 2 none).subscription = none ∧
     (1 : Nat) ≠ 2) ∧
    ((∀ v sub,
        (objNote.event = some "routing/subscribe") →
        getKey "subscriptions" objNote.metadata = some v → pArr v = .ok sub →
        findClient (handle_incoming_object pArr
          { token := 1, clients := [mkClient 2 none], shutdown := false } 2 objNote) 2 =
          some { send_object (mkClient 2 none) (subscription_reply sub objNote) with
                 subscription := some sub }) ∧
     ((¬∃ v sub, objNote.event = some "routing/subscribe" ∧
         getKey "subscriptions" objNote.metadata = some v ∧ pArr v = .ok sub) →
       findClient (handle_incoming_object pArr
         { token := 1, clients := [mkClient 2 none], shutdown := false } 2 objNote) 2 = none)) :=
  ⟨⟨rfl, rfl, by decide⟩,
   handshake_gate pArr { token := 1, clients := [mkClient 2 none], shutdown := false } 2
     (mkClient 2 none) objNote rfl rfl (by decide)⟩

/-- C6: a `ping` from a subscribed connection enqueues the `pong` reply
on that connection alone, and only when the sender's own subscription
matches the event `pong`; no other connection's queue changes; and the
pong's metadata carries `in-reply-to` exactly when the ping's
`metadata["id"]` is a JSON string, copying it. -/
theorem ping_reply_routing (p : Json → Except BusinessSubscriptionError BusinessSubscription)
    (s : Server) (t : Nat) (c : BusinessClient) (sub : BusinessSubscription)
    (O : BusinessObject)
    (hc : findClient s t = some c) (hsub : c.subscription = some sub)
    (hev : O.event = some "ping") :
    queueOf (handle_incoming_object p s t O) t =
      some (c.sendQueue ++
        (if routing_decision none (some "pong") none sub then [ping_reply O] else [])) ∧
    (∀ u, u ≠ t → queueOf (handle_incoming_object p s t O) u = queueOf s u) ∧
    getKey "in-reply-to" (ping_reply O).metadata =
      (getKey "id" O.metadata).bind (fun id => id.as_string.map Json.string) := by
  have hct : c.token = t := by
    have := List.find?_some (by simpa [findClient] using hc)
    simpa using this
  refine ⟨?_, ?_, ?_⟩
  · simp only [handle_incoming_object, hc, hsub, hev, if_pos]
    cases hdec : routing_decision none (some "pong") none sub with
    | true =>
      rw [if_pos rfl]
      unfold queueOf
      rw [findClient_updateClient s t t (fun cl => send_object cl (ping_reply O))
        (fun cl => rfl), hc]
      simp [hct, send_object]
    | false =>
      rw [if_neg Bool.false_ne_true]
      unfold queueOf
      rw [hc]
      simp
  · intro u hu
    simp only [handle_incoming_object, hc, hsub, hev, if_pos]
    cases hdec : routing_decision none (some "pong") none sub with
    | true =>
      rw [if_pos rfl]
      unfold queueOf
      rw [findClient_updateClient s t u (fun cl => send_object cl (ping_reply O))
        (fun cl => rfl)]
      cases hfu : findClient s u with
      | none => simp [hfu]
      | some cu =>
        have hcu : cu.token = u := by
          have := List.find?_some (by simpa [findClient] using hfu)
          simpa using this
        simp [hfu, hcu, hu]
    | false =>
      rw [if_neg Bool.false_ne_true]
  · unfold ping_reply
    cases hid : getKey "id" O.metadata with
    | none => simp [hid, getKey]
    | some id =>
      cases id <;> simp [hid, Json.as_string, insertKey, getKey]

/-- Witness for C6: a concrete subscribed client receiving a ping whose
`id` is a string. -/
theorem ping_reply_routing_witness :
    (findClient srvOne 3 = some subbedClient ∧
     subbedClient.subscription = some subAll ∧
     objPing.event = some "ping") ∧
    (queueOf (handle_incoming_object pRej srvOne 3 objPing) 3 =
      some (subbedClient.sendQueue ++
        (if routing_decision none (some "pong") none subAll then [ping_reply objPing] else [])) ∧
     (∀ u, u ≠ 3 → queueOf (handle_incoming_object pRej srvOne 3 objPing) u = queueOf srvOne u) ∧
     getKey "in-reply-to" (ping_reply objPing).metadata =
       (getKey "id" objPing.metadata).bind (fun id => id.as_string.map Json.string)) :=
  ⟨⟨rfl, rfl, rfl⟩, ping_reply_routing pRej srvOne 3 subbedClient subAll objPing rfl rfl rfl⟩

/-- C4 (amended): for every object satisfying the claim's §3 invariant
strengthened by excluding an explicit size value of `0` (the codec
collapses `size = 0` to "absent"), decoding the encoded frame reproduces
the object: the fields `event`, `type`, `size`, `payload` are
structurally equal and the metadata map is pointwise equal as JSON
values. -/
theorem frame_round_trip (o : BusinessObject)
    (hinv : claimInvariant o = true) (hpos : sizePositive o = true) :
    ∃ r, readFrame o.to_json (payloadBytes o) = some r ∧
      r.event = o.event ∧ r._type = o._type ∧ r.size = o.size ∧ r.payload = o.payload ∧
      (∀ k, getKey k r.metadata = getKey k o.metadata) := by
  simp only [claimInvariant, Bool.and_eq_true] at hinv
  obtain ⟨⟨⟨hbp, hlen⟩, hres⟩, hndb⟩ := hinv
  simp only [reservedFree, Bool.and_eq_true, Option.isNone_iff_eq_none] at hres
  obtain ⟨⟨hE, hT⟩, hS⟩ := hres
  have hnd : (keysOf o.metadata).Nodup := of_decide_eq_true hndb
  have hbp' : o.has_payload = o.payload.isSome := by
    simpa using hbp
  obtain ⟨hgE, hgT, hgS, hgM⟩ := headerMap_getKey o hnd hE hT hS
  have hhnd := headerMap_nodup o hnd hE hT hS
  have hoE : (toBusinessObject (headerMap o)).event = o.event := by
    simp only [toBusinessObject, hgE]
    cases o.event <;> simp [Json.as_string]
  have hoT : (toBusinessObject (headerMap o))._type = o._type := by
    simp only [toBusinessObject, hgT]
    cases o._type <;> simp [Json.as_string]
  have hoS : (toBusinessObject (headerMap o)).size = o.size := by
    simp only [toBusinessObject, hgS]
    cases hsz : o.size with
    | none => simp
    | some n =>
      have hn : 0 < n := by
        have h := hpos
        simp [sizePositive, hsz] at h
        exact h
      simp [Json.as_u64, hn]
  have hoM : ∀ k, getKey k (toBusinessObject (headerMap o)).metadata = getKey k o.metadata := by
    intro k
    simp only [toBusinessObject]
    rw [metaFold_eq _ hhnd, getKey_filter_reserved]
    by_cases hrk : reservedKey k = true
    · rw [if_pos hrk]
      have hk3 : k = "event" ∨ k = "type" ∨ k = "size" := by
        have h := hrk
        simp [reservedKey] at h
        tauto
      rcases hk3 with rfl | rfl | rfl
      · exact hE.symm
      · exact hT.symm
      · exact hS.symm
    · rw [if_neg hrk]
      exact hgM k (by simpa using hrk)
  have hfrom : BusinessObject.from_json o.to_json = .ok (toBusinessObject (headerMap o)) := rfl
  cases hp : o.payload with
  | none =>
    have hsz : o.size = none := by
      cases hsz : o.size with
      | none => rfl
      | some n =>
        have hn : 0 < n := by
          have h := hpos
          simp [sizePositive, hsz] at h
          exact h
        have hhp1 : o.has_payload = true := by
          simp [BusinessObject.has_payload, hsz, hn]
        rw [hbp', hp] at hhp1
        simp at hhp1
    have hhp : (toBusinessObject (headerMap o)).has_payload = false := by
      simp [BusinessObject.has_payload, hoS, hsz]
    refine ⟨toBusinessObject (headerMap o), ?_, hoE, hoT, hoS, ?_, hoM⟩
    · unfold readFrame
      rw [hfrom]
      simp [hhp]
    · simp [toBusinessObject, hp]
  | some pl =>
    obtain ⟨b⟩ := pl
    have hlen' : o.size = some b.length := by
      simpa [hp] using hlen
    have hblen : 0 < b.length := by
      have h := hpos
      simp [sizePositive, hlen'] at h
      exact h
    have hhp : (toBusinessObject (headerMap o)).has_payload = true := by
      simp [BusinessObject.has_payload, hoS, hlen', hblen]
    have hpb : payloadBytes o = b := by
      simp [payloadBytes, hp]
    refine ⟨{ toBusinessObject (headerMap o) with payload := some (.bytes b) },
      ?_, hoE, hoT, hoS, ?_, hoM⟩
    · unfold readFrame
      rw [hfrom]
      simp only [hhp, if_pos]
      rw [hoS, hlen', hpb]
      simp
    · simp [hp]

/-- Witness for C4 at a concrete object carrying a two-byte payload and
one metadata entry. -/
theorem frame_round_trip_witness :
    (claimInvariant oPay = true ∧ sizePositive oPay = true) ∧
    (∃ r, readFrame oPay.to_json (payloadBytes oPay) = some r ∧
      r.event = oPay.event ∧ r._type = oPay._type ∧ r.size = oPay.size ∧
      r.payload = oPay.payload ∧
      (∀ k, getKey k r.metadata = getKey k oPay.metadata)) :=
  ⟨⟨rfl, rfl⟩, frame_round_trip oPay rfl rfl⟩

/-- Counterexample for C4 as stated: `sizeZero` (an explicit `size` of
`0`, no payload) satisfies the claim's stated §3 invariant, yet decoding
its encoding yields `size = none`, not `some 0`, so the field `size` is
not structurally equal. -/
theorem size_zero_breaks_round_trip :
    claimInvariant sizeZero = true ∧
    (readFrame sizeZero.to_json (payloadBytes sizeZero)).map BusinessObject.size = some none ∧
    sizeZero.size = some 0 :=
  ⟨rfl, rfl, rfl⟩

end ObjSys
